import Mathlib

/-!
The cyclone file `websocket/application.go`: topic naming, message dispatch, log streaming.

A shallow embedding of `src/websocket/application.go` and the properties proved of it.

* Go strings are byte sequences (`GoString`); a string literal is the list of the
  bytes of its UTF-8 encoding (`lit`).
* `strings.Replace` is embedded through the `Count`/`Index` loop of the Go
  standard library, `fmt.Sprintf` with `%s` verbs as concatenation.
* The dispatcher (`AnalysisMessage`) and the handlers are state-passing functions over
  a `World` (session objects, session list, a trace of the externally visible calls);
  a Go panic is the `Outcome.panicked` result, `defer`/`recover` is explicit.
* The streamer (`PushTopic`) is a loop driven by a script of what its environment
  answers in each iteration (the topic flag it reads, the result of `Consume`,
  the result of `Send`); it yields the trace of the calls it makes.
* Log output (`log.Infof`, `log.Error`, `log.Debugf`) is not part of the model.
-/

set_option autoImplicit false

namespace Cyclone

/-! ## Strings -/

/-- A Go string: a sequence of bytes. -/
abbrev GoString := List UInt8

/-- A Go string literal, as the bytes of its UTF-8 encoding. -/
def lit (s : String) : GoString := s.toUTF8.data.toList

/-- The byte `'-'`. -/
def dash : UInt8 := 45

/-- The byte `'_'`. -/
def underscore : UInt8 := 95

/-- Whether `s` begins with `p` (Go: `strings.HasPrefix(s, p)`). -/
def startsWith : GoString → GoString → Bool
  | _, [] => true
  | [], _ :: _ => false
  | c :: s, p :: ps => c == p && startsWith s ps

/-- Go `strings.Index(s, substr)`: the index of the first instance of `substr` in `s`;
`none` stands for Go's result `-1` (no instance). -/
def Index : GoString → GoString → Option Nat
  | [], substr => if startsWith [] substr then some 0 else none
  | c :: s, substr =>
    if startsWith (c :: s) substr then some 0 else (Index s substr).map (· + 1)

/-- The loop of Go `strings.Count(s, substr)` for a non-empty `substr`:
`for { i := Index(s, substr); if i == -1 { return n }; n++; s = s[i+len(substr):] }`.
The first argument bounds the number of iterations. -/
def countLoop (substr : GoString) : Nat → GoString → Nat
  | 0, _ => 0
  | fuel + 1, s =>
    match Index s substr with
    | none => 0
    | some i => countLoop substr fuel (s.drop (i + substr.length)) + 1

/-- Go `strings.Count(s, substr)` for a non-empty `substr`: the number of
non-overlapping instances of `substr` in `s`. Every iteration of the loop removes at
least one byte of `s`, so `len(s)` iterations are enough. -/
def Count (s substr : GoString) : Nat := countLoop substr s.length s

/-- The replacement loop of Go `strings.Replace` for a non-empty `old`, on the rest
`s[start:]` of the string:
`for i := 0; i < n; i++ { j := start + Index(s[start:], old); b.WriteString(s[start:j]);
b.WriteString(new); start = j + len(old) }; b.WriteString(s[start:])`. -/
def replaceLoop (old new : GoString) : Nat → GoString → GoString
  | 0, s => s
  | n + 1, s =>
    match Index s old with
    | none => s
    | some j => s.take j ++ new ++ replaceLoop old new n (s.drop (j + old.length))

/-- Go `strings.Replace(s, old, new, n)` for a non-empty `old` (the library's branch for
an empty `old`, which works on UTF-8 sequences, is excluded by the last argument):
the first `n` non-overlapping instances of `old` are replaced by `new`; when `n < 0`
there is no limit. -/
def Replace (s old new : GoString) (n : Int) (_hold : old ≠ []) : GoString :=
  if old = new ∨ n = 0 then s
  else
    let m := Count s old
    if m = 0 then s
    else
      let k := if n < 0 ∨ (m : Int) < n then m else n.toNat
      replaceLoop old new k s

/-! ## Topic naming (`application.go`, lines 129-144) -/

/-- Go `convertUUID`: `strings.Replace(sUUID, "-", "_", -1)`. -/
def convertUUID (sUUID : GoString) : GoString :=
  Replace sUUID [dash] [underscore] (-1) (List.cons_ne_nil _ _)

/-- Go `CreateTopicName`:
`fmt.Sprintf("%s__%s__%s__%s", convertUUID(sAPI), convertUUID(sUserID),
convertUUID(sServiceID), convertUUID(sVersionID))`. -/
def CreateTopicName (sAPI sUserID sServiceID sVersionID : GoString) : GoString :=
  let sConvertedAPI := convertUUID sAPI
  let sConvertedUserID := convertUUID sUserID
  let sConvertedServiceID := convertUUID sServiceID
  let sConvertedVersionID := convertUUID sVersionID
  sConvertedAPI ++ lit "__" ++ sConvertedUserID ++ lit "__" ++ sConvertedServiceID
    ++ lit "__" ++ sConvertedVersionID

/-- The replacement in the words of the specification: every `'-'` becomes `'_'`, every
other byte stays as it is. -/
def specDashToUnderscore (s : GoString) : GoString :=
  s.map (fun c => if c = dash then underscore else c)

/-- The topic key in the words of the specification: the four converted components in
the order api, userId, serviceId, versionId, joined by `"__"`. -/
def specTopicKey (api userId serviceId versionId : GoString) : GoString :=
  specDashToUnderscore api ++ lit "__" ++ specDashToUnderscore userId ++ lit "__"
    ++ specDashToUnderscore serviceId ++ lit "__" ++ specDashToUnderscore versionId

/-- The hypothesis of the specification on an identifier: it does not contain the
separator sequence `"__"`. -/
abbrev NoSeparator (x : GoString) : Prop := ¬ (lit "__" <:+: x)

/-- The identifier does not end in `'_'`. -/
abbrev NoTrailingUnderscore (x : GoString) : Prop := ¬ ([underscore] <:+ x)

/-! ## Values shared by the dispatcher and the streamer -/

/-- A Go `error` value, by its message. -/
abbrev GoError := String

/-- The value a Go panic carries: the argument of `panic(err)`, or a run-time error
(a failed type assertion, a nil pointer dereference). -/
inductive PanicValue where
  | err (e : GoError)
  | runtime (msg : String)
  deriving DecidableEq, Repr

/-- How a call of a Go function ends: it returns a value, or it panics and the panic
propagates to the caller. -/
inductive Outcome (α : Type) where
  | returned (a : α)
  | panicked (v : PanicValue)
  deriving DecidableEq, Repr

/-- What `json.Unmarshal` stores in an `interface{}`: `nil`, `bool`, `float64`, `string`,
`[]interface{}` or `map[string]interface{}`. -/
inductive JsonValue where
  | null
  | bool (b : Bool)
  | float64 (f : Rat)
  | string (s : GoString)
  | array (xs : List JsonValue)
  | object (m : List (GoString × JsonValue))

/-- Indexing a Go map with string keys, `m[key]`, the map being the list of its entries;
`none` is the zero value a missing key gives (and what every key of a nil map gives). -/
def mapIndex {β : Type} : List (GoString × β) → GoString → Option β
  | [], _ => none
  | (k, v) :: m, key => if k = key then some v else mapIndex m key

/-- The type assertion `x.(string)` on an `interface{}` read from the generic map: it
panics unless the dynamic type is `string` (a missing entry and JSON `null` are the nil
interface). -/
def assertString : Option JsonValue → Outcome GoString
  | some (JsonValue.string s) => Outcome.returned s
  | _ => Outcome.panicked (PanicValue.runtime "interface conversion: not a string")

/-- Modelled from the spec: the declaration of `WatchLogPacket` is not among the sources;
the fields are those `application.go` reads, the `WatchRequest` of the specification
(`action, requestId, api, userId, serviceId, versionId, operation`). -/
structure WatchLogPacket where
  Action : GoString
  Id : GoString
  Api : GoString
  UserId : GoString
  ServiceId : GoString
  VersionId : GoString
  Operation : GoString
  deriving DecidableEq, Repr

/-- Modelled from the spec: the declaration of `WorkerPushLogPacket` is not among the
sources; the fields are those `application.go` reads (`action, topic, log`). -/
structure WorkerPushLogPacket where
  Action : GoString
  Topic : GoString
  Log : GoString
  deriving DecidableEq, Repr

/-- Modelled from the spec: the acknowledgement `{action, requestId, errorCode}` that
`PacketResponse` encodes; its declaration is not among the sources. -/
structure ResponsePacket where
  action : GoString
  requestId : GoString
  errorCode : Nat
  deriving DecidableEq, Repr

/-- Modelled from the spec: the outbound packet
`{api, userId, serviceId, versionId, log, correlationId}` that `PacketPushLog` encodes;
its declaration is not among the sources. -/
structure PushLogPacket where
  api : GoString
  userId : GoString
  serviceId : GoString
  versionId : GoString
  log : GoString
  correlationId : GoString
  deriving DecidableEq, Repr

/-- Modelled from the spec: the `DataPacket` of the transport, whose declaration is not
among the sources: the frame bytes, their length, the addressee and the sender. -/
structure DataPacket where
  byrFrame : GoString
  nFrameLen : Nat
  sSendTo : GoString
  sReceiveFrom : GoString
  deriving DecidableEq, Repr

/-- Modelled from the spec: `dp.GetReceiveFrom()`, the identity of the sending session. -/
def DataPacket.GetReceiveFrom (dp : DataPacket) : GoString := dp.sReceiveFrom

/-- Modelled from the spec: `dp.GetData()`, the raw bytes of the inbound message. -/
def DataPacket.GetData (dp : DataPacket) : GoString := dp.byrFrame

/-- The library `encoding/json` as the program uses it, a parameter of the model:
`json.Unmarshal` into a `map[string]interface{}`, into a `*WatchLogPacket` and into a
`*WorkerPushLogPacket` (`none` is the nil pointer that the input `null` leaves), and the
encoding of the two outbound packets. -/
structure JsonLib where
  unmarshalMap : GoString → Except GoError (List (GoString × JsonValue))
  unmarshalWatchLog : GoString → Except GoError (Option WatchLogPacket)
  unmarshalWorkerPushLog : GoString → Except GoError (Option WorkerPushLogPacket)
  marshalResponse : ResponsePacket → GoString
  marshalPushLog : PushLogPacket → GoString

/-- Modelled from the spec: the constant `Error_Code_Successful` (the success code of an
acknowledgement), declared outside the sources; its value is a parameter. -/
structure Constants where
  Error_Code_Successful : Nat

/-- Modelled from the spec: `PacketResponse(action, id, code)` encodes the acknowledgement
`{action, requestId, errorCode}`; the function is not among the sources. -/
def PacketResponse (J : JsonLib) (sAction sId : GoString) (nErrorCode : Nat) : GoString :=
  J.marshalResponse { action := sAction, requestId := sId, errorCode := nErrorCode }

/-- Modelled from the spec: `PacketPushLog(api, userId, serviceId, versionId, log, id)`
encodes the push-log packet `{api, userId, serviceId, versionId, log, correlationId}`;
the function is not among the sources. -/
def PacketPushLog (J : JsonLib) (sApi sUserId sServiceId sVersionId sLog sId : GoString) :
    GoString :=
  J.marshalPushLog { api := sApi, userId := sUserId, serviceId := sServiceId,
                     versionId := sVersionId, log := sLog, correlationId := sId }

/-! ## Sessions and the session list -/

/-- Modelled from the spec: the session object `WSSession` (section 4.2), declared outside
the sources: its identity, the mapping from topic to enabled flag, and whether it has
been closed (is no longer sendable). -/
structure WSSession where
  sSessionID : GoString
  mapTopicEnable : List (GoString × Bool)
  bClosed : Bool
  deriving DecidableEq, Repr

/-- Modelled from the spec: `TopicEnabled(topic)`, "missing topic reads as `false`". -/
def WSSession.GetTopicEnable (wss : WSSession) (sTopic : GoString) : Bool :=
  (mapIndex wss.mapTopicEnable sTopic).getD false

/-- Modelled from the spec: `SetTopicEnabled(topic, enabled)`, "idempotent; sets flag". -/
def WSSession.SetTopicEnable (wss : WSSession) (sTopic : GoString) (bEnable : Bool) :
    WSSession :=
  { wss with mapTopicEnable :=
      (sTopic, bEnable) :: wss.mapTopicEnable.filter (fun kv => kv.1 ≠ sTopic) }

/-- Modelled from the spec: what `OnClosed()` does to the session object, "sets every
tracked topic's flag to disabled ... and marks the session non-sendable". -/
def WSSession.closeFlags (wss : WSSession) : WSSession :=
  { wss with mapTopicEnable := wss.mapTopicEnable.map (fun kv => (kv.1, false)),
             bClosed := true }

/-- The calls the dispatcher and the handlers make on their collaborators, in order:
the call of a handler of `MsgHandlerMap`, `OnClosed` on a session, `Send` on a session,
the start of a `PushTopic` goroutine, `kafka.Produce`. -/
inductive Event where
  | invoke (sAction : GoString) (sReceiveFrom : GoString)
  | onClosed (sSessionID : GoString)
  | send (sSessionID : GoString) (dp : DataPacket)
  | goPushTopic (sSessionID : GoString) (pWatchLog : WatchLogPacket)
  | produce (sTopic : GoString) (byrLog : GoString)
  deriving DecidableEq, Repr

/-- The state the dispatcher works on: the session objects (`heap`, one per identity;
streamers keep referring to an object after it left the list), the identities registered
in the session list, and the calls made so far. -/
structure World where
  heap : List WSSession
  sessionList : List GoString
  trace : List Event
  deriving DecidableEq, Repr

/-- Modelled from the spec: `GetSessionList().GetSession(id)`, the registered session with
that identity, `none` for the nil interface ("`Get` after `Remove` returns absent"). -/
def GetSession (w : World) (sSessionID : GoString) : Option WSSession :=
  if sSessionID ∈ w.sessionList then w.heap.find? (fun s => s.sSessionID = sSessionID)
  else none

/-- A method with pointer receiver changes the session object in place. -/
def updateSession (w : World) (sSessionID : GoString) (f : WSSession → WSSession) : World :=
  { w with heap := w.heap.map (fun s => if s.sSessionID = sSessionID then f s else s) }

/-- Modelled from the spec: `wss.SetTopicEnable(sTopic, bEnable)` on the session object. -/
def SetTopicEnable (w : World) (wss : WSSession) (sTopic : GoString) (bEnable : Bool) :
    World :=
  updateSession w wss.sSessionID (fun s => s.SetTopicEnable sTopic bEnable)

/-- Modelled from the spec: `wss.OnClosed()`, the cleanup of a session: it is removed
from the session list, its topic flags are cleared and it is marked non-sendable. -/
def OnClosed (w : World) (wss : WSSession) : World :=
  let w1 := updateSession w wss.sSessionID WSSession.closeFlags
  { w1 with sessionList := w1.sessionList.filter (fun i => i ≠ wss.sSessionID),
            trace := w1.trace ++ [Event.onClosed wss.sSessionID] }

/-- Modelled from the spec: `wss.Send(dpPacket)` hands the packet to the transport of
the session. The callers in `application.go` discard whatever `Send` returns. -/
def Send (w : World) (wss : WSSession) (dpPacket : DataPacket) : World :=
  { w with trace := w.trace ++ [Event.send wss.sSessionID dpPacket] }

/-! ## Handlers (`application.go`, lines 70-127) -/

/-- Go `type MsgHandler func(sReceiveFrom string, jsonPacket []byte)`: a handler returns
nothing; it may panic, and it changes the world. -/
abbrev MsgHandler :=
  JsonLib → Constants → GoString → GoString → World → Outcome Unit × World

/-- Go `watchLogHandler`. The goroutine started by `go PushTopic(wss, pWatchLog)` is
recorded in the trace; it runs concurrently (see `PushTopic`). -/
def watchLogHandler : MsgHandler := fun J K sReceiveFrom jsonPacket w =>
  match J.unmarshalWatchLog jsonPacket with
  | Except.error err => (Outcome.panicked (PanicValue.err err), w)
  | Except.ok none =>
    (Outcome.panicked (PanicValue.runtime "invalid memory address or nil pointer dereference"), w)
  | Except.ok (some pWatchLog) =>
    let sTopic := CreateTopicName pWatchLog.Api pWatchLog.UserId
      pWatchLog.ServiceId pWatchLog.VersionId
    match GetSession w sReceiveFrom with
    | none =>
      (Outcome.panicked (PanicValue.runtime "interface conversion: interface is nil"), w)
    | some wss =>
      let w1 :=
        if lit "start" = pWatchLog.Operation then
          let w0 := SetTopicEnable w wss sTopic true
          { w0 with trace := w0.trace ++ [Event.goPushTopic wss.sSessionID pWatchLog] }
        else if lit "stop" = pWatchLog.Operation then
          SetTopicEnable w wss sTopic false
        else w
      let byrResponse := PacketResponse J pWatchLog.Action pWatchLog.Id
        K.Error_Code_Successful
      let dpPacket : DataPacket :=
        { byrFrame := byrResponse, nFrameLen := byrResponse.length,
          sSendTo := wss.sSessionID, sReceiveFrom := [] }
      (Outcome.returned (), Send w1 wss dpPacket)

/-- Go `heartBeatHandler`: it only writes a log line. -/
def heartBeatHandler : MsgHandler := fun _ _ _ _ w => (Outcome.returned (), w)

/-- Go `workerPushLogHandler`: the log line of the worker goes to `kafka.Produce`. -/
def workerPushLogHandler : MsgHandler := fun J _ _ jsonPacket w =>
  match J.unmarshalWorkerPushLog jsonPacket with
  | Except.error err => (Outcome.panicked (PanicValue.err err), w)
  | Except.ok none =>
    (Outcome.panicked (PanicValue.runtime "invalid memory address or nil pointer dereference"), w)
  | Except.ok (some workerPushLog) =>
    (Outcome.returned (),
      { w with trace := w.trace ++ [Event.produce workerPushLog.Topic workerPushLog.Log] })

/-- Go `MsgHandlerMap`, the map from action to handler, as the list of its entries. -/
def MsgHandlerMap : List (GoString × MsgHandler) :=
  [ (lit "watch_log", watchLogHandler),
    (lit "heart_beat", heartBeatHandler),
    (lit "worker_push_log", workerPushLogHandler) ]

/-! ## The dispatcher (`application.go`, lines 30-68) -/

/-- Go `onCloseSession`: `OnClosed` on the session registered under the identity, nothing
when there is none. -/
def onCloseSession (sSessionID : GoString) (w : World) : World :=
  match GetSession w sSessionID with
  | none => w
  | some isSession => OnClosed w isSession

/-- Go `unmarshalRecover`, the deferred function of `AnalysisMessage`; the first argument
is what `recover()` returns, `none` for nil (no panic in progress). -/
def unmarshalRecover (recovered : Option PanicValue) (sReceiveFrom : GoString)
    (w : World) : World :=
  match recovered with
  | some _ => onCloseSession sReceiveFrom w
  | none => w

/-- The body of Go `AnalysisMessage`, lines 36-49, before the deferred call runs. The call
of a handler is recorded in the trace. -/
def AnalysisMessageBody (J : JsonLib) (K : Constants) (dp : DataPacket) (w : World) :
    Outcome Bool × World :=
  let sReceiveFrom := dp.GetReceiveFrom
  let jsonPacket := dp.GetData
  match J.unmarshalMap jsonPacket with
  | Except.error err => (Outcome.panicked (PanicValue.err err), w)
  | Except.ok mapData =>
    match assertString (mapIndex mapData (lit "action")) with
    | Outcome.panicked v => (Outcome.panicked v, w)
    | Outcome.returned sAction =>
      match mapIndex MsgHandlerMap sAction with
      | some handler =>
        match handler J K sReceiveFrom jsonPacket
            { w with trace := w.trace ++ [Event.invoke sAction sReceiveFrom] } with
        | (Outcome.panicked v, w1) => (Outcome.panicked v, w1)
        | (Outcome.returned (), w1) => (Outcome.returned true, w1)
      | none => (Outcome.returned false, w)

/-- Go `AnalysisMessage`: the body, then the deferred `unmarshalRecover(sReceiveFrom)`.
When the body panicked, `recover()` in the deferred function stops the panic and the
function returns the zero value of its unnamed result, `false`. -/
def AnalysisMessage (J : JsonLib) (K : Constants) (dp : DataPacket) (w : World) :
    Outcome Bool × World :=
  match AnalysisMessageBody J K dp w with
  | (Outcome.returned b, w1) =>
    (Outcome.returned b, unmarshalRecover none dp.GetReceiveFrom w1)
  | (Outcome.panicked v, w1) =>
    (Outcome.returned false, unmarshalRecover (some v) dp.GetReceiveFrom w1)

/-- The handlers called in a trace. -/
def invocations : List Event → List Event
  | [] => []
  | Event.invoke a f :: es => Event.invoke a f :: invocations es
  | _ :: es => invocations es

/-- The sessions closed in a trace. -/
def closings : List Event → List GoString
  | [] => []
  | Event.onClosed i :: es => i :: closings es
  | _ :: es => closings es

/-! ## The streamer (`application.go`, lines 146-189) -/

/-- An error of the `kafka` package: the distinguished `kafka.ErrNoData`, or another. -/
inductive KafkaError where
  | ErrNoData
  | other (msg : String)
  deriving DecidableEq, Repr

/-- The message `consumer.Consume()` returns; the streamer reads its `Value`. -/
structure Message where
  Value : GoString
  deriving DecidableEq, Repr

/-- What the environment of the streamer answers during one iteration of its loop:
the flag `wss.GetTopicEnable(sTopic)` reads (other goroutines set it), the result of
`consumer.Consume()`, the identifier `uuid.NewV4().String()` yields, and the result of
`wss.Send` (`none` for success). An answer is used only if the iteration makes the call. -/
structure IterEnv where
  bTopicEnable : Bool
  consumed : Except KafkaError Message
  uuid : GoString
  sendResult : Option GoError

/-- The calls the streamer makes, in order, with what they returned. -/
inductive StreamEvent where
  | newConsumer (sTopic : GoString) (err : Option GoError)
  | getTopicEnable (sTopic : GoString) (b : Bool)
  | consume (r : Except KafkaError Message)
  | send (dp : DataPacket) (r : Option GoError)
  | sleep (ms : Nat)

/-- How a run of the streamer stands at the end of the script: its loop has ended
(`break`), it is still running, or the goroutine has panicked. -/
inductive StreamStatus where
  | stopped
  | running
  | panicked
  deriving DecidableEq, Repr

/-- Modelled from the spec: `wss.GetSessionID()`, declared outside the sources, returns the
identity of the session, a field of the object; on a nil pointer (`none`) reading the
field is a nil pointer dereference. -/
def GetSessionID (wss : Option GoString) : Outcome GoString :=
  match wss with
  | some sSessionID => Outcome.returned sSessionID
  | none =>
    Outcome.panicked (PanicValue.runtime "invalid memory address or nil pointer dereference")

/-- The `for` loop of Go `PushTopic`, lines 158-187, one script entry per iteration.
`wss` is the session pointer (`none` for nil) with the identity of the session. -/
def pushLoop (J : JsonLib) (wss : Option GoString) (pWatchLog : WatchLogPacket)
    (sTopic : GoString) : List IterEnv → List StreamEvent × StreamStatus
  | [] => ([], StreamStatus.running)
  | e :: es =>
    match wss with
    | none => ([], StreamStatus.stopped)
    | some sSessionID =>
      if false = e.bTopicEnable then
        ([StreamEvent.getTopicEnable sTopic false], StreamStatus.stopped)
      else
        match e.consumed with
        | Except.error errConsume =>
          if errConsume ≠ KafkaError.ErrNoData then
            ([StreamEvent.getTopicEnable sTopic true,
              StreamEvent.consume (Except.error errConsume)], StreamStatus.stopped)
          else
            let r := pushLoop J wss pWatchLog sTopic es
            (StreamEvent.getTopicEnable sTopic true
              :: StreamEvent.consume (Except.error errConsume) :: r.1, r.2)
        | Except.ok msg =>
          let byrLog := PacketPushLog J pWatchLog.Api pWatchLog.UserId
            pWatchLog.ServiceId pWatchLog.VersionId msg.Value e.uuid
          let dpPacket : DataPacket :=
            { byrFrame := byrLog, nFrameLen := byrLog.length,
              sSendTo := sSessionID, sReceiveFrom := [] }
          let r := pushLoop J wss pWatchLog sTopic es
          (StreamEvent.getTopicEnable sTopic true :: StreamEvent.consume (Except.ok msg)
            :: StreamEvent.send dpPacket e.sendResult :: StreamEvent.sleep 100 :: r.1, r.2)

/-- Go `PushTopic`: the topic name, the argument `wss.GetSessionID()` of the log call of
line 150 (on a nil session the goroutine panics there, before the consumer is created),
the consumer (`errNewConsumer` is the error of `kafka.NewConsumer`, `none` for nil),
then the loop. -/
def PushTopic (J : JsonLib) (wss : Option GoString) (pWatchLog : WatchLogPacket)
    (errNewConsumer : Option GoError) (script : List IterEnv) :
    List StreamEvent × StreamStatus :=
  let sTopic := CreateTopicName pWatchLog.Api pWatchLog.UserId
    pWatchLog.ServiceId pWatchLog.VersionId
  match GetSessionID wss with
  | Outcome.panicked _ => ([], StreamStatus.panicked)
  | Outcome.returned _ =>
    match errNewConsumer with
    | some err => ([StreamEvent.newConsumer sTopic (some err)], StreamStatus.stopped)
    | none =>
      let r := pushLoop J wss pWatchLog sTopic script
      (StreamEvent.newConsumer sTopic none :: r.1, r.2)

/-- The number of polls of the consumer in a trace of the streamer. -/
def consumeCount : List StreamEvent → Nat
  | [] => 0
  | StreamEvent.consume _ :: es => consumeCount es + 1
  | _ :: es => consumeCount es

/-- The packets sent in a trace of the streamer. -/
def sentPackets : List StreamEvent → List DataPacket
  | [] => []
  | StreamEvent.send dp _ :: es => dp :: sentPackets es
  | _ :: es => sentPackets es

/-! ## Postconditions and sample data -/

/-- The effect of a session-fatal message from `sSessionID`, from the world `w` to the
world `w1`: no handler is called; when a session is registered under `sSessionID` the
world is that after its `OnClosed` (one more closing in the trace, the session is off
the session list, its object is marked closed with every topic flag false) and what
belongs to the other identities is as before; when none is registered nothing changes. -/
def SessionClosedOnly (w w1 : World) (sSessionID : GoString) : Prop :=
  invocations w1.trace = invocations w.trace
  ∧ (∀ wss, GetSession w sSessionID = some wss →
      w1 = OnClosed w wss
      ∧ closings w1.trace = closings w.trace ++ [sSessionID]
      ∧ GetSession w1 sSessionID = none
      ∧ (∀ s ∈ w1.heap, s.sSessionID = sSessionID →
          s.bClosed = true ∧ ∀ t, s.GetTopicEnable t = false)
      ∧ (∀ i, i ≠ sSessionID → GetSession w1 i = GetSession w i)
      ∧ w1.heap.filter (fun s => s.sSessionID ≠ sSessionID)
          = w.heap.filter (fun s => s.sSessionID ≠ sSessionID))
  ∧ (GetSession w sSessionID = none → w1 = w)

/-- A stand-in for `encoding/json` in the examples: `bad` is not JSON, `noaction` is an
object without an `action`, `bogus` carries an unknown action, every other input the
action `watch_log`; only `watch` decodes as a watch request (to start watching); a packet
is encoded by joining its fields. -/
def sampleJson : JsonLib where
  unmarshalMap := fun b =>
    if b = lit "bad" then Except.error "invalid character"
    else if b = lit "noaction" then Except.ok []
    else if b = lit "bogus" then Except.ok [(lit "action", JsonValue.string (lit "bogus"))]
    else Except.ok [(lit "action", JsonValue.string (lit "watch_log"))]
  unmarshalWatchLog := fun b =>
    if b = lit "watch" then
      Except.ok (some { Action := lit "watch_log", Id := lit "r1", Api := lit "api-x",
                        UserId := lit "u-1", ServiceId := lit "svc", VersionId := lit "v1",
                        Operation := lit "start" })
    else Except.error "unexpected end of JSON input"
  unmarshalWorkerPushLog := fun _ => Except.error "unexpected end of JSON input"
  marshalResponse := fun r => r.action ++ lit "," ++ r.requestId
  marshalPushLog := fun p =>
    p.api ++ lit "," ++ p.userId ++ lit "," ++ p.serviceId ++ lit "," ++ p.versionId
      ++ lit "," ++ p.log ++ lit "," ++ p.correlationId

/-- The constants of the examples. -/
def sampleConstants : Constants := { Error_Code_Successful := 0 }

/-- The session `s1` of the examples, watching one topic. -/
def sampleSession : WSSession :=
  { sSessionID := lit "s1", mapTopicEnable := [(lit "a__u__s__v", true)], bClosed := false }

/-- The world of the examples: two registered sessions, `s1` and `s2`. -/
def sampleWorld : World :=
  { heap := [ sampleSession,
              { sSessionID := lit "s2", mapTopicEnable := [], bClosed := false } ],
    sessionList := [lit "s1", lit "s2"],
    trace := [] }

/-- An inbound packet of the examples, from session `s1`. -/
def samplePacket (data : String) : DataPacket :=
  { byrFrame := lit data, nFrameLen := (lit data).length, sSendTo := [],
    sReceiveFrom := lit "s1" }

/-- The watch request of the examples. -/
def sampleWatch : WatchLogPacket :=
  { Action := lit "watch_log", Id := lit "r1", Api := lit "api-x", UserId := lit "u-1",
    ServiceId := lit "svc", VersionId := lit "v1", Operation := lit "start" }

/-- An iteration of the examples in which the flag is set, `Consume` yields the line
`line` and `Send` returns `sendResult`. -/
def sampleIter (line : String) (sendResult : Option GoError) : IterEnv :=
  { bTopicEnable := true, consumed := Except.ok { Value := lit line }, uuid := lit "id",
    sendResult := sendResult }

/-- An iteration of the examples in which the flag reads false. -/
def sampleStop : IterEnv :=
  { bTopicEnable := false, consumed := Except.error KafkaError.ErrNoData, uuid := lit "id",
    sendResult := none }

/-! ## Topic naming -/

theorem lit_sep : lit "__" = [underscore, underscore] := by decide

theorem startsWith_single (c d : UInt8) (s : GoString) : startsWith (c :: s) [d] = (c == d) := by
  cases s <;> simp [startsWith]

theorem Index_single_cons (c d : UInt8) (s : GoString) :
    Index (c :: s) [d] = if c = d then some 0 else (Index s [d]).map (· + 1) := by
  simp [Index, startsWith_single]

theorem Index_single_none (d : UInt8) (s : GoString) (h : Index s [d] = none) : d ∉ s := by
  induction s with
  | nil => simp
  | cons c s ih =>
    rw [Index_single_cons] at h
    by_cases hc : c = d
    · simp [hc] at h
    · simp [hc] at h
      simp [ih h, Ne.symm hc]

theorem Index_single_some (d : UInt8) (s : GoString) (j : Nat) (h : Index s [d] = some j) :
    ∃ pre post, s = pre ++ d :: post ∧ pre.length = j ∧ d ∉ pre := by
  induction s generalizing j with
  | nil => simp [Index, startsWith] at h
  | cons c s ih =>
    rw [Index_single_cons] at h
    by_cases hc : c = d
    · simp [hc] at h
      exact ⟨[], s, by simp [hc], by simp [h], by simp⟩
    · simp [hc] at h
      obtain ⟨i, hi, hj⟩ := h
      obtain ⟨pre, post, hs, hl, hn⟩ := ih i hi
      exact ⟨c :: pre, post, by simp [hs], by simp [hl, hj], by simp [hn, Ne.symm hc]⟩

theorem countLoop_single (d : UInt8) (fuel : Nat) (s : GoString) (h : s.length ≤ fuel) :
    countLoop [d] fuel s = s.count d := by
  induction fuel generalizing s with
  | zero =>
    have : s = [] := List.length_eq_zero.mp (Nat.le_zero.mp h)
    simp [countLoop, this]
  | succ f ih =>
    simp only [countLoop]
    cases hI : Index s [d] with
    | none =>
      have := Index_single_none d s hI
      simp [List.count_eq_zero_of_not_mem this]
    | some j =>
      obtain ⟨pre, post, hs, hl, hn⟩ := Index_single_some d s j hI
      subst hs
      have hdrop : List.drop (j + [d].length) (pre ++ d :: post) = post := by
        rw [← hl]; simp
      simp only [hdrop]
      rw [ih post (by simp at h; omega)]
      simp [List.count_eq_zero_of_not_mem hn]

theorem replaceLoop_single (d e : UInt8) (s : GoString) :
    replaceLoop [d] [e] (s.count d) s = s.map (fun c => if c = d then e else c) := by
  generalize hn : s.length = n
  induction n using Nat.strong_induction_on generalizing s with
  | _ n ih =>
    cases hc : s.count d with
    | zero =>
      have hmem : d ∉ s := List.count_eq_zero.mp hc
      simp only [replaceLoop]
      symm
      conv_rhs => rw [← List.map_id s]
      apply List.map_congr_left
      intro a ha
      have : a ≠ d := fun h => hmem (h ▸ ha)
      simp [this]
    | succ k =>
      simp only [replaceLoop]
      cases hI : Index s [d] with
      | none =>
        have := Index_single_none d s hI
        simp [List.count_eq_zero_of_not_mem this] at hc
      | some j =>
        obtain ⟨pre, post, hs, hl, hpre⟩ := Index_single_some d s j hI
        subst hs
        have hdrop : List.drop (j + [d].length) (pre ++ d :: post) = post := by
          rw [← hl]; simp
        have htake : List.take j (pre ++ d :: post) = pre := by
          rw [← hl]; simp
        have hk : k = post.count d := by
          simp [List.count_eq_zero_of_not_mem hpre] at hc
          omega
        simp only [hdrop, htake]
        rw [hk, ih post.length (by subst hn; simp; omega) post rfl]
        have hpremap : pre.map (fun c => if c = d then e else c) = pre := by
          conv_rhs => rw [← List.map_id pre]
          apply List.map_congr_left
          intro a ha
          have : a ≠ d := fun h => hpre (h ▸ ha)
          simp [this]
        simp [hpremap]

theorem map_dash_of_not_mem (s : GoString) (h : dash ∉ s) : specDashToUnderscore s = s := by
  unfold specDashToUnderscore
  conv_rhs => rw [← List.map_id s]
  apply List.map_congr_left
  intro a ha
  have : a ≠ dash := fun e => h (e ▸ ha)
  simp [this]

theorem convertUUID_eq (s : GoString) : convertUUID s = specDashToUnderscore s := by
  have hne : ¬ (([dash] : GoString) = [underscore] ∨ (-1 : Int) = 0) := by decide
  have hneg : ((-1 : Int) < 0 ∨ ((Count s [dash] : Nat) : Int) < -1) := Or.inl (by decide)
  unfold convertUUID Replace
  simp only [if_neg hne, if_pos hneg]
  have hC : Count s [dash] = s.count dash := countLoop_single dash s.length s (le_refl _)
  rw [hC]
  by_cases h0 : s.count dash = 0
  · simp only [h0, if_true]
    exact (map_dash_of_not_mem s (List.count_eq_zero.mp h0)).symm
  · simp only [h0, if_false]
    exact replaceLoop_single dash underscore s

theorem CreateTopicName_eq (a u s v : GoString) : CreateTopicName a u s v = specTopicKey a u s v := by
  simp [CreateTopicName, specTopicKey, convertUUID_eq]

theorem dash_not_mem_spec (s : GoString) : dash ∉ specDashToUnderscore s := by
  unfold specDashToUnderscore
  intro h
  obtain ⟨c, _, hc⟩ := List.mem_map.mp h
  by_cases hd : c = dash
  · rw [if_pos hd] at hc
    exact absurd hc (by decide)
  · rw [if_neg hd] at hc
    exact hd hc

/-- C1: `CreateTopicName` yields the four components in the order api, userId, serviceId,
versionId, each with every `'-'` replaced by `'_'` and no other byte changed, joined by
`"__"`; in particular `CreateTopicName("api-x", "u-1", "svc", "v1")` is
`"api_x__u_1__svc__v1"`. -/
theorem CreateTopicName_format (api userId serviceId versionId : GoString) :
    CreateTopicName api userId serviceId versionId
        = specDashToUnderscore api ++ lit "__" ++ specDashToUnderscore userId ++ lit "__"
            ++ specDashToUnderscore serviceId ++ lit "__" ++ specDashToUnderscore versionId
      ∧ CreateTopicName (lit "api-x") (lit "u-1") (lit "svc") (lit "v1")
          = lit "api_x__u_1__svc__v1" := by
  refine ⟨?_, by decide⟩
  simp [CreateTopicName, convertUUID_eq]

/-- C9: the result of `CreateTopicName` contains no `'-'`. -/
theorem CreateTopicName_no_dash (api userId serviceId versionId : GoString) :
    dash ∉ CreateTopicName api userId serviceId versionId := by
  rw [CreateTopicName_eq]
  simp [specTopicKey, dash_not_mem_spec, lit_sep]
  decide

theorem split_unique (x y x' y' : GoString)
    (hx : NoSeparator x) (hx' : NoSeparator x')
    (ex : NoTrailingUnderscore x) (ex' : NoTrailingUnderscore x')
    (h : x ++ lit "__" ++ y = x' ++ lit "__" ++ y') : x = x' ∧ y = y' := by
  have key : ∀ (p q r r' : GoString), NoSeparator q → NoTrailingUnderscore q →
      p ++ lit "__" ++ r = q ++ lit "__" ++ r' → p.length ≤ q.length → p = q := by
    intro p q r r' hq eq hh hl
    rw [List.append_assoc, List.append_assoc] at hh
    obtain ⟨m, hm⟩ | ⟨m, hm⟩ := List.append_eq_append_iff.mp hh
    · -- q = p ++ m
      obtain ⟨hq1, hq2⟩ := hm
      rw [lit_sep] at hq2
      match m, hq1, hq2 with
      | [], hq1, _ => simpa using hq1.symm
      | [c], hq1, hq2 =>
        exfalso
        simp at hq2
        obtain ⟨h1, _⟩ := hq2
        subst h1
        apply eq
        rw [hq1]
        exact ⟨p, by simp⟩
      | c :: d :: m', hq1, hq2 =>
        exfalso
        simp at hq2
        obtain ⟨h1, h2, _⟩ := hq2
        subst h1 h2
        apply hq
        rw [hq1, lit_sep]
        exact ⟨p, m', by simp⟩
    · obtain ⟨hp1, _⟩ := hm
      have : m = [] := by
        have := congrArg List.length hp1
        simp at this
        exact List.length_eq_zero.mp (by omega)
      simpa [this] using hp1
  have hxx : x = x' := by
    rcases Nat.le_total x.length x'.length with hl | hl
    · exact key x x' y y' hx' ex' h hl
    · exact (key x' x y' y hx ex h.symm hl).symm
  subst hxx
  refine ⟨rfl, ?_⟩
  rw [List.append_assoc, List.append_assoc] at h
  exact List.append_cancel_left (List.append_cancel_left h)

/-! ### Sessions -/

theorem mapIndex_eq_none {β : Type} (m : List (GoString × β)) (key : GoString)
    (h : key ∉ m.map Prod.fst) : mapIndex m key = none := by
  induction m with
  | nil => rfl
  | cons kv m ih =>
    obtain ⟨k, v⟩ := kv
    simp only [List.map_cons, List.mem_cons, not_or] at h
    simp only [mapIndex, if_neg (Ne.symm h.1)]
    exact ih h.2

theorem mapIndex_filter_ne (m : List (GoString × Bool)) (sTopic t : GoString) (h : t ≠ sTopic) :
    mapIndex (m.filter (fun kv => kv.1 ≠ sTopic)) t = mapIndex m t := by
  induction m with
  | nil => rfl
  | cons kv m ih =>
    obtain ⟨k, v⟩ := kv
    simp only [ne_eq, decide_not] at ih
    by_cases hk : k = sTopic
    · have hkt : ¬ sTopic = t := fun e => h e.symm
      simp [List.filter, hk, mapIndex, ih, hkt]
    · simp [List.filter, hk, mapIndex, ih]

theorem GetTopicEnable_SetTopicEnable_same (wss : WSSession) (sTopic : GoString) (b : Bool) :
    (wss.SetTopicEnable sTopic b).GetTopicEnable sTopic = b := by
  simp [WSSession.SetTopicEnable, WSSession.GetTopicEnable, mapIndex]

theorem GetTopicEnable_SetTopicEnable_other (wss : WSSession) (sTopic t : GoString) (b : Bool)
    (h : t ≠ sTopic) :
    (wss.SetTopicEnable sTopic b).GetTopicEnable t = wss.GetTopicEnable t := by
  have hf := mapIndex_filter_ne wss.mapTopicEnable sTopic t h
  simp only [ne_eq, decide_not] at hf
  simp [WSSession.SetTopicEnable, WSSession.GetTopicEnable, mapIndex, Ne.symm h, hf]

theorem GetTopicEnable_closeFlags (wss : WSSession) (t : GoString) :
    wss.closeFlags.GetTopicEnable t = false := by
  have key : ∀ m : List (GoString × Bool),
      (mapIndex (m.map (fun kv => (kv.1, false))) t).getD false = false := by
    intro m
    induction m with
    | nil => rfl
    | cons kv m ih =>
      by_cases hk : kv.1 = t
      · simp [mapIndex, hk]
      · simp [mapIndex, hk, ih]
  exact key wss.mapTopicEnable

theorem GetSession_id (w : World) (i : GoString) (wss : WSSession)
    (h : GetSession w i = some wss) : wss.sSessionID = i := by
  unfold GetSession at h
  split at h
  · simpa using List.find?_some h
  · exact absurd h (by simp)

theorem find_map_update (l : List WSSession) (i j : GoString) (f : WSSession → WSSession)
    (hf : ∀ s, (f s).sSessionID = s.sSessionID) :
    (l.map (fun s => if s.sSessionID = j then f s else s)).find? (fun s => s.sSessionID = i)
      = (l.find? (fun s => s.sSessionID = i)).map (fun s => if s.sSessionID = j then f s else s) := by
  induction l with
  | nil => rfl
  | cons x l ih =>
    have hid : (if x.sSessionID = j then f x else x).sSessionID = x.sSessionID := by
      split
      · exact hf x
      · rfl
    by_cases hx : x.sSessionID = i
    · have hid2 := hid.trans hx
      rw [List.map_cons, List.find?_cons_of_pos _ (by simpa using hid2),
        List.find?_cons_of_pos _ (by simpa using hx)]
      rfl
    · simp only [List.map_cons, List.find?, hid, hx, decide_False]
      exact ih

theorem GetSession_updateSession_same (w : World) (i : GoString) (wss : WSSession)
    (f : WSSession → WSSession) (hf : ∀ s, (f s).sSessionID = s.sSessionID)
    (h : GetSession w i = some wss) :
    GetSession (updateSession w wss.sSessionID f) i = some (f wss) := by
  have hid := GetSession_id w i wss h
  unfold GetSession at h ⊢
  by_cases hm : i ∈ w.sessionList
  · simp only [hm, if_true] at h
    simp only [updateSession, hm, if_true, find_map_update _ _ _ f hf, h, Option.map_some',
      hid, if_true]
  · simp [hm] at h

theorem GetSession_updateSession_other (w : World) (i j : GoString)
    (f : WSSession → WSSession) (hf : ∀ s, (f s).sSessionID = s.sSessionID) (hij : i ≠ j) :
    GetSession (updateSession w j f) i = GetSession w i := by
  unfold GetSession
  by_cases hm : i ∈ w.sessionList
  · simp only [updateSession, hm, if_true, find_map_update _ _ _ f hf]
    cases hfind : w.heap.find? (fun s => s.sSessionID = i) with
    | none => rfl
    | some s =>
      have : s.sSessionID = i := by simpa using List.find?_some hfind
      simp [this, hij]
  · simp [updateSession, hm]

theorem closeFlags_id (s : WSSession) : s.closeFlags.sSessionID = s.sSessionID := rfl

theorem GetSession_OnClosed_same (w : World) (wss : WSSession) :
    GetSession (OnClosed w wss) wss.sSessionID = none := by
  simp [GetSession, OnClosed, updateSession]

theorem GetSession_OnClosed_other (w : World) (wss : WSSession) (i : GoString)
    (h : i ≠ wss.sSessionID) : GetSession (OnClosed w wss) i = GetSession w i := by
  have := GetSession_updateSession_other w i wss.sSessionID WSSession.closeFlags closeFlags_id h
  unfold GetSession at this ⊢
  simpa [OnClosed, updateSession, h] using this

theorem heap_OnClosed_cleared (w : World) (wss : WSSession) (s : WSSession)
    (hs : s ∈ (OnClosed w wss).heap) (hid : s.sSessionID = wss.sSessionID) (t : GoString) :
    s.GetTopicEnable t = false ∧ s.bClosed = true := by
  simp only [OnClosed, updateSession, List.mem_map] at hs
  obtain ⟨x, _, hx⟩ := hs
  by_cases hxi : x.sSessionID = wss.sSessionID
  · rw [if_pos hxi] at hx
    subst hx
    exact ⟨GetTopicEnable_closeFlags x t, rfl⟩
  · rw [if_neg hxi] at hx
    subst hx
    exact absurd hid hxi

theorem heap_OnClosed_others (w : World) (wss : WSSession) :
    (OnClosed w wss).heap.filter (fun s => s.sSessionID ≠ wss.sSessionID)
      = w.heap.filter (fun s => s.sSessionID ≠ wss.sSessionID) := by
  simp only [OnClosed, updateSession]
  induction w.heap with
  | nil => rfl
  | cons x l ih =>
    simp only [ne_eq, decide_not] at ih
    by_cases hx : x.sSessionID = wss.sSessionID
    · simp [List.filter, hx, closeFlags_id, ih]
    · simp [List.filter, hx, ih]

theorem invocations_append (a b : List Event) :
    invocations (a ++ b) = invocations a ++ invocations b := by
  induction a with
  | nil => rfl
  | cons e a ih => cases e <;> simp [invocations, ih]

theorem closings_append (a b : List Event) :
    closings (a ++ b) = closings a ++ closings b := by
  induction a with
  | nil => rfl
  | cons e a ih => cases e <;> simp [closings, ih]

theorem spec_injective_of_no_underscore (x y : GoString) (hx : underscore ∉ x)
    (hy : underscore ∉ y) (h : specDashToUnderscore x = specDashToUnderscore y) : x = y := by
  induction x generalizing y with
  | nil =>
    cases y with
    | nil => rfl
    | cons d y => simp [specDashToUnderscore] at h
  | cons c x ih =>
    cases y with
    | nil => simp [specDashToUnderscore] at h
    | cons d y =>
      simp only [specDashToUnderscore, List.map_cons, List.cons.injEq] at h
      simp only [List.mem_cons, not_or] at hx hy
      have hcd : c = d := by
        have h1 := h.1
        by_cases hc : c = dash
        · by_cases hd : d = dash
          · rw [hc, hd]
          · rw [if_pos hc, if_neg hd] at h1
            exact absurd h1 hy.1
        · by_cases hd : d = dash
          · rw [if_neg hc, if_pos hd] at h1
            exact absurd h1.symm hx.1
          · rw [if_neg hc, if_neg hd] at h1
            exact h1
      rw [hcd, ih y hx.2 hy.2 h.2]

/-- C2 as stated fails. First collision: `a-b` and `a_b` are converted to the same
component. Second collision: `"x_"`, `"y"` and `"x"`, `"_y"` give the same three
underscores between `x` and `y`. Third collision: the converted `"x-_y"` and `"z-_s"`
contain a separator of their own. None of the identifiers contains `"__"`. -/
theorem CreateTopicName_collision :
    ((∀ x ∈ [lit "a-b", lit "u", lit "s", lit "v", lit "a_b", lit "u", lit "s", lit "v"],
        NoSeparator x)
      ∧ CreateTopicName (lit "a-b") (lit "u") (lit "s") (lit "v")
          = CreateTopicName (lit "a_b") (lit "u") (lit "s") (lit "v")
      ∧ lit "a-b" ≠ lit "a_b")
    ∧ ((∀ x ∈ [lit "x_", lit "y", lit "s", lit "v", lit "x", lit "_y", lit "s", lit "v"],
        NoSeparator x)
      ∧ CreateTopicName (lit "x_") (lit "y") (lit "s") (lit "v")
          = CreateTopicName (lit "x") (lit "_y") (lit "s") (lit "v")
      ∧ lit "x_" ≠ lit "x")
    ∧ ((∀ x ∈ [lit "x-_y", lit "z", lit "s", lit "v", lit "x", lit "y", lit "z-_s", lit "v"],
        NoSeparator x)
      ∧ CreateTopicName (lit "x-_y") (lit "z") (lit "s") (lit "v")
          = CreateTopicName (lit "x") (lit "y") (lit "z-_s") (lit "v")
      ∧ lit "x-_y" ≠ lit "x") := by
  decide

/-- C2, amended: `CreateTopicName` is collision-free up to the conversion of `'-'` to
`'_'`. For two tuples whose first three components, once converted, neither contain
`"__"` nor end in `'_'`, equal names have equal converted components; and two
corresponding identifiers are themselves equal as soon as both are free of `'_'` or both
are free of `'-'`. -/
theorem CreateTopicName_collision_free (a u s v a1 u1 s1 v1 : GoString)
    (hsep : ∀ x ∈ [a, u, s, a1, u1, s1], NoSeparator (convertUUID x))
    (hend : ∀ x ∈ [a, u, s, a1, u1, s1], NoTrailingUnderscore (convertUUID x))
    (h : CreateTopicName a u s v = CreateTopicName a1 u1 s1 v1) :
    (convertUUID a = convertUUID a1 ∧ convertUUID u = convertUUID u1
      ∧ convertUUID s = convertUUID s1 ∧ convertUUID v = convertUUID v1)
    ∧ (∀ q ∈ [(a, a1), (u, u1), (s, s1), (v, v1)],
        (underscore ∉ q.1 ∧ underscore ∉ q.2) ∨ (dash ∉ q.1 ∧ dash ∉ q.2) → q.1 = q.2) := by
  simp only [List.mem_cons, List.mem_singleton, forall_eq_or_imp, forall_eq,
    List.not_mem_nil, false_implies, implies_true, and_true] at hsep hend
  obtain ⟨sa, su, ss, sa1, su1, ss1⟩ := hsep
  obtain ⟨ea, eu, es, ea1, eu1, es1⟩ := hend
  have h1 : convertUUID a ++ lit "__" ++ (convertUUID u ++ lit "__"
        ++ (convertUUID s ++ lit "__" ++ convertUUID v))
      = convertUUID a1 ++ lit "__" ++ (convertUUID u1 ++ lit "__"
        ++ (convertUUID s1 ++ lit "__" ++ convertUUID v1)) := by
    simpa [CreateTopicName, List.append_assoc] using h
  obtain ⟨haa, h2⟩ := split_unique _ _ _ _ sa sa1 ea ea1 h1
  obtain ⟨huu, h3⟩ := split_unique _ _ _ _ su su1 eu eu1 h2
  obtain ⟨hss, hvv⟩ := split_unique _ _ _ _ ss ss1 es es1 h3
  have key : ∀ x y : GoString, convertUUID x = convertUUID y →
      (underscore ∉ x ∧ underscore ∉ y) ∨ (dash ∉ x ∧ dash ∉ y) → x = y := by
    intro x y hxy hcase
    rw [convertUUID_eq, convertUUID_eq] at hxy
    rcases hcase with ⟨hx, hy⟩ | ⟨hx, hy⟩
    · exact spec_injective_of_no_underscore x y hx hy hxy
    · rwa [map_dash_of_not_mem x hx, map_dash_of_not_mem y hy] at hxy
  refine ⟨⟨haa, huu, hss, hvv⟩, ?_⟩
  intro q hq
  simp only [List.mem_cons, List.mem_singleton, List.not_mem_nil, or_false] at hq
  rcases hq with rfl | rfl | rfl | rfl
  · exact key _ _ haa
  · exact key _ _ huu
  · exact key _ _ hss
  · exact key _ _ hvv

/-- C2, amended, on an example: the names of `api-x`, `u-1`, `svc`, `v1` and of `api_x`,
`u_1`, `svc`, `v1` are equal, and so are the converted components. -/
theorem CreateTopicName_collision_free_witness :
    CreateTopicName (lit "api-x") (lit "u-1") (lit "svc") (lit "v1")
        = CreateTopicName (lit "api_x") (lit "u_1") (lit "svc") (lit "v1")
    ∧ convertUUID (lit "api-x") = convertUUID (lit "api_x")
    ∧ convertUUID (lit "u-1") = convertUUID (lit "u_1")
    ∧ lit "svc" = lit "svc" :=
  ⟨by decide,
    (CreateTopicName_collision_free (lit "api-x") (lit "u-1") (lit "svc") (lit "v1")
      (lit "api_x") (lit "u_1") (lit "svc") (lit "v1") (by decide) (by decide)
      (by decide)).1.1,
    (CreateTopicName_collision_free (lit "api-x") (lit "u-1") (lit "svc") (lit "v1")
      (lit "api_x") (lit "u_1") (lit "svc") (lit "v1") (by decide) (by decide)
      (by decide)).1.2.1,
    (CreateTopicName_collision_free (lit "api-x") (lit "u-1") (lit "svc") (lit "v1")
      (lit "api_x") (lit "u_1") (lit "svc") (lit "v1") (by decide) (by decide)
      (by decide)).2 (lit "svc", lit "svc") (by simp) (Or.inl ⟨by decide, by decide⟩)⟩

/-! ### The dispatcher -/

theorem onCloseSession_closedOnly (w : World) (i : GoString) :
    SessionClosedOnly w (onCloseSession i w) i := by
  unfold SessionClosedOnly onCloseSession
  cases h : GetSession w i with
  | none => simp
  | some wss =>
    have hid := GetSession_id w i wss h
    subst hid
    refine ⟨?_, ?_, by simp⟩
    · simp [OnClosed, updateSession, invocations_append, invocations]
    · intro wss2 h2
      cases Option.some.inj h2
      refine ⟨rfl, ?_, GetSession_OnClosed_same w wss, ?_, ?_, heap_OnClosed_others w wss⟩
      · simp [OnClosed, updateSession, closings_append, closings]
      · intro s hs hsid
        exact ⟨(heap_OnClosed_cleared w wss s hs hsid []).2,
          fun t => (heap_OnClosed_cleared w wss s hs hsid t).1⟩
      · intro j hj
        exact GetSession_OnClosed_other w wss j hj

theorem AnalysisMessage_of_panicked (J : JsonLib) (K : Constants) (dp : DataPacket)
    (w w1 : World) (v : PanicValue)
    (h : AnalysisMessageBody J K dp w = (Outcome.panicked v, w1)) :
    AnalysisMessage J K dp w = (Outcome.returned false, onCloseSession dp.GetReceiveFrom w1) := by
  simp [AnalysisMessage, h, unmarshalRecover]

/-- C3: a message that does not decode as a JSON object (`json.Unmarshal` returns an
error, or, for the input `null`, leaves the map nil, which has no entries) makes the body
of `AnalysisMessage` panic; the panic does not reach the caller, `AnalysisMessage`
returns `false`, no handler is called, and exactly the session registered under the
identity of the sender is closed by its `OnClosed` (nothing changes when there is none). -/
theorem AnalysisMessage_malformed (J : JsonLib) (K : Constants) (dp : DataPacket) (w : World)
    (hdec : (∃ err, J.unmarshalMap dp.GetData = Except.error err)
      ∨ J.unmarshalMap dp.GetData = Except.ok []) :
    (∃ v, AnalysisMessageBody J K dp w = (Outcome.panicked v, w))
    ∧ (AnalysisMessage J K dp w).1 = Outcome.returned false
    ∧ SessionClosedOnly w (AnalysisMessage J K dp w).2 dp.GetReceiveFrom := by
  have hb : ∃ v, AnalysisMessageBody J K dp w = (Outcome.panicked v, w) := by
    rcases hdec with ⟨err, herr⟩ | hnil
    · exact ⟨PanicValue.err err, by simp [AnalysisMessageBody, herr]⟩
    · exact ⟨_, by simp [AnalysisMessageBody, hnil, mapIndex, assertString]; rfl⟩
  obtain ⟨v, hv⟩ := hb
  rw [AnalysisMessage_of_panicked J K dp w w v hv]
  exact ⟨⟨v, hv⟩, rfl, onCloseSession_closedOnly w _⟩

/-- C3, on an example: the input `bad` from session `s1` closes `s1` and leaves `s2`. -/
theorem AnalysisMessage_malformed_witness :
    sampleJson.unmarshalMap (samplePacket "bad").GetData = Except.error "invalid character"
    ∧ (AnalysisMessage sampleJson sampleConstants (samplePacket "bad") sampleWorld).1
        = Outcome.returned false
    ∧ SessionClosedOnly sampleWorld
        (AnalysisMessage sampleJson sampleConstants (samplePacket "bad") sampleWorld).2
        (samplePacket "bad").GetReceiveFrom :=
  ⟨rfl, (AnalysisMessage_malformed sampleJson sampleConstants (samplePacket "bad") sampleWorld
    (Or.inl ⟨"invalid character", rfl⟩)).2⟩

/-- C4: an envelope that decodes and whose `action` is a string that is not a key of
`MsgHandlerMap` (`watch_log`, `heart_beat`, `worker_push_log`): `AnalysisMessage` returns
`false` and leaves the world as it was: no handler is called, no `OnClosed`, and every
session stays registered with its topic flags. -/
theorem AnalysisMessage_unknown_action (J : JsonLib) (K : Constants) (dp : DataPacket)
    (w : World) (mapData : List (GoString × JsonValue)) (sAction : GoString)
    (hdec : J.unmarshalMap dp.GetData = Except.ok mapData)
    (hact : mapIndex mapData (lit "action") = some (JsonValue.string sAction))
    (hkey : sAction ∉ MsgHandlerMap.map Prod.fst) :
    MsgHandlerMap.map Prod.fst = [lit "watch_log", lit "heart_beat", lit "worker_push_log"]
    ∧ AnalysisMessage J K dp w = (Outcome.returned false, w) := by
  refine ⟨rfl, ?_⟩
  have hnone := mapIndex_eq_none MsgHandlerMap sAction hkey
  simp [AnalysisMessage, AnalysisMessageBody, hdec, hact, assertString, hnone, unmarshalRecover]

/-- C4, on an example: the action `bogus`. -/
theorem AnalysisMessage_unknown_action_witness :
    lit "bogus" ∉ MsgHandlerMap.map Prod.fst
    ∧ AnalysisMessage sampleJson sampleConstants (samplePacket "bogus") sampleWorld
        = (Outcome.returned false, sampleWorld) :=
  ⟨by decide, (AnalysisMessage_unknown_action sampleJson sampleConstants (samplePacket "bogus")
    sampleWorld [(lit "action", JsonValue.string (lit "bogus"))] (lit "bogus") rfl rfl
    (by decide)).2⟩

/-- C10: an envelope that decodes as an object whose `action` entry is missing or is not
a string is session-fatal: the type assertion panics, the panic is recovered, no handler
is called, `OnClosed` is called on the session of the sender if one is registered, and
`AnalysisMessage` returns `false`. -/
theorem AnalysisMessage_action_not_string (J : JsonLib) (K : Constants) (dp : DataPacket)
    (w : World) (mapData : List (GoString × JsonValue))
    (hdec : J.unmarshalMap dp.GetData = Except.ok mapData)
    (hact : ∀ s, mapIndex mapData (lit "action") ≠ some (JsonValue.string s)) :
    (∃ v, AnalysisMessageBody J K dp w = (Outcome.panicked (PanicValue.runtime v), w))
    ∧ (AnalysisMessage J K dp w).1 = Outcome.returned false
    ∧ SessionClosedOnly w (AnalysisMessage J K dp w).2 dp.GetReceiveFrom := by
  have hb : ∃ v, AnalysisMessageBody J K dp w = (Outcome.panicked (PanicValue.runtime v), w) := by
    unfold AnalysisMessageBody
    simp only [hdec]
    cases hx : mapIndex mapData (lit "action") with
    | none => exact ⟨_, rfl⟩
    | some x =>
      cases x with
      | string s => exact absurd hx (hact s)
      | _ => exact ⟨_, rfl⟩
  obtain ⟨v, hv⟩ := hb
  rw [AnalysisMessage_of_panicked J K dp w w _ hv]
  exact ⟨⟨v, hv⟩, rfl, onCloseSession_closedOnly w _⟩

/-- C10, on an example: an object without `action`. -/
theorem AnalysisMessage_action_not_string_witness :
    (∀ s, mapIndex ([] : List (GoString × JsonValue)) (lit "action") ≠ some (JsonValue.string s))
    ∧ (AnalysisMessage sampleJson sampleConstants (samplePacket "noaction") sampleWorld).1
        = Outcome.returned false :=
  ⟨fun _ h => Option.noConfusion h,
    (AnalysisMessage_action_not_string sampleJson sampleConstants (samplePacket "noaction")
      sampleWorld [] rfl (fun _ h => Option.noConfusion h)).2.1⟩

theorem GetSession_congr (w w1 : World) (i : GoString) (hh : w1.heap = w.heap)
    (hl : w1.sessionList = w.sessionList) : GetSession w1 i = GetSession w i := by
  unfold GetSession
  rw [hh, hl]

/-- C5: for a registered session and a `watch_log` request that decodes, with operation
`start` or `stop`: `watchLogHandler` returns, and afterwards the flag of the session for
the topic `CreateTopicName(api, userId, serviceId, versionId)` is true after `start` and
false after `stop`, the flag of every other topic being as before. -/
theorem watchLogHandler_sets_flag (J : JsonLib) (K : Constants)
    (sReceiveFrom jsonPacket : GoString) (w : World) (p : WatchLogPacket) (wss : WSSession)
    (hdec : J.unmarshalWatchLog jsonPacket = Except.ok (some p))
    (hreg : GetSession w sReceiveFrom = some wss)
    (hop : p.Operation = lit "start" ∨ p.Operation = lit "stop") :
    (watchLogHandler J K sReceiveFrom jsonPacket w).1 = Outcome.returned ()
    ∧ ∃ wss1, GetSession (watchLogHandler J K sReceiveFrom jsonPacket w).2 sReceiveFrom
          = some wss1
        ∧ wss1.GetTopicEnable (CreateTopicName p.Api p.UserId p.ServiceId p.VersionId)
            = decide (p.Operation = lit "start")
        ∧ ∀ t, t ≠ CreateTopicName p.Api p.UserId p.ServiceId p.VersionId →
            wss1.GetTopicEnable t = wss.GetTopicEnable t := by
  have hne : lit "start" ≠ lit "stop" := by decide
  have hset : ∀ b : Bool,
      (watchLogHandler J K sReceiveFrom jsonPacket w).2.heap
          = (SetTopicEnable w wss
              (CreateTopicName p.Api p.UserId p.ServiceId p.VersionId) b).heap →
      (watchLogHandler J K sReceiveFrom jsonPacket w).2.sessionList = w.sessionList →
      GetSession (watchLogHandler J K sReceiveFrom jsonPacket w).2 sReceiveFrom
        = some (wss.SetTopicEnable
            (CreateTopicName p.Api p.UserId p.ServiceId p.VersionId) b) := by
    intro b hh hl
    rw [GetSession_congr (SetTopicEnable w wss
      (CreateTopicName p.Api p.UserId p.ServiceId p.VersionId) b) _ sReceiveFrom hh hl]
    exact GetSession_updateSession_same w sReceiveFrom wss _ (fun _ => rfl) hreg
  rcases hop with hop | hop
  · refine ⟨by simp [watchLogHandler, hdec, hreg], _, hset true ?_ ?_, ?_, ?_⟩
    · simp [watchLogHandler, hdec, hreg, hop, Send]
    · simp [watchLogHandler, hdec, hreg, hop, Send, SetTopicEnable, updateSession]
    · simp [GetTopicEnable_SetTopicEnable_same, hop]
    · intro t ht
      exact GetTopicEnable_SetTopicEnable_other wss _ t true ht
  · refine ⟨by simp [watchLogHandler, hdec, hreg], _, hset false ?_ ?_, ?_, ?_⟩
    · simp [watchLogHandler, hdec, hreg, hop, hne, Send]
    · simp [watchLogHandler, hdec, hreg, hop, hne, Send, SetTopicEnable, updateSession]
    · simp [GetTopicEnable_SetTopicEnable_same, hop, Ne.symm hne]
    · intro t ht
      exact GetTopicEnable_SetTopicEnable_other wss _ t false ht

/-- C5, on an example: session `s1` starts watching. -/
theorem watchLogHandler_sets_flag_witness :
    GetSession sampleWorld (lit "s1") = some sampleSession
    ∧ ∃ wss1, GetSession
            (watchLogHandler sampleJson sampleConstants (lit "s1") (lit "watch") sampleWorld).2
            (lit "s1") = some wss1
        ∧ wss1.GetTopicEnable (lit "api_x__u_1__svc__v1") = true :=
  ⟨by decide,
    match (watchLogHandler_sets_flag sampleJson sampleConstants (lit "s1") (lit "watch")
      sampleWorld sampleWatch sampleSession rfl (by decide) (Or.inl rfl)).2 with
    | ⟨wss1, h1, h2, _⟩ => ⟨wss1, h1, h2⟩⟩

/-! ### The streamer -/

theorem pushLoop_flag_false (J : JsonLib) (sid : GoString) (p : WatchLogPacket)
    (sTopic : GoString) (e : IterEnv) (es : List IterEnv) (h : e.bTopicEnable = false) :
    pushLoop J (some sid) p sTopic (e :: es)
      = ([StreamEvent.getTopicEnable sTopic false], StreamStatus.stopped) := by
  simp [pushLoop, h]

theorem pushLoop_no_data (J : JsonLib) (sid : GoString) (p : WatchLogPacket)
    (sTopic : GoString) (e : IterEnv) (es : List IterEnv) (h : e.bTopicEnable = true)
    (hc : e.consumed = Except.error KafkaError.ErrNoData) :
    pushLoop J (some sid) p sTopic (e :: es)
      = (StreamEvent.getTopicEnable sTopic true
          :: StreamEvent.consume (Except.error KafkaError.ErrNoData)
          :: (pushLoop J (some sid) p sTopic es).1,
         (pushLoop J (some sid) p sTopic es).2) := by
  simp [pushLoop, h, hc]

theorem pushLoop_error (J : JsonLib) (sid : GoString) (p : WatchLogPacket)
    (sTopic : GoString) (e : IterEnv) (es : List IterEnv) (err : KafkaError)
    (h : e.bTopicEnable = true) (hc : e.consumed = Except.error err)
    (hne : err ≠ KafkaError.ErrNoData) :
    pushLoop J (some sid) p sTopic (e :: es)
      = ([StreamEvent.getTopicEnable sTopic true, StreamEvent.consume (Except.error err)],
         StreamStatus.stopped) := by
  simp [pushLoop, h, hc, hne]

theorem pushLoop_message (J : JsonLib) (sid : GoString) (p : WatchLogPacket)
    (sTopic : GoString) (e : IterEnv) (es : List IterEnv) (msg : Message)
    (h : e.bTopicEnable = true) (hc : e.consumed = Except.ok msg) :
    pushLoop J (some sid) p sTopic (e :: es)
      = (StreamEvent.getTopicEnable sTopic true :: StreamEvent.consume (Except.ok msg)
          :: StreamEvent.send
              { byrFrame := PacketPushLog J p.Api p.UserId p.ServiceId p.VersionId
                  msg.Value e.uuid,
                nFrameLen := (PacketPushLog J p.Api p.UserId p.ServiceId p.VersionId
                  msg.Value e.uuid).length,
                sSendTo := sid, sReceiveFrom := [] } e.sendResult
          :: StreamEvent.sleep 100 :: (pushLoop J (some sid) p sTopic es).1,
         (pushLoop J (some sid) p sTopic es).2) := by
  simp [pushLoop, h, hc]

theorem pushLoop_append (J : JsonLib) (wss : Option GoString) (p : WatchLogPacket)
    (sTopic : GoString) (pre rest : List IterEnv) :
    pushLoop J wss p sTopic (pre ++ rest)
      = match (pushLoop J wss p sTopic pre).2 with
        | StreamStatus.running =>
          ((pushLoop J wss p sTopic pre).1 ++ (pushLoop J wss p sTopic rest).1,
            (pushLoop J wss p sTopic rest).2)
        | _ => pushLoop J wss p sTopic pre := by
  induction pre with
  | nil => simp [pushLoop]
  | cons e es ih =>
    cases wss with
    | none => simp [pushLoop]
    | some sid =>
      cases hf : e.bTopicEnable with
      | false => simp [pushLoop, hf]
      | true =>
        cases hc : e.consumed with
        | error err =>
          by_cases hne : err = KafkaError.ErrNoData
          · subst hne
            rw [List.cons_append, pushLoop_no_data J sid p sTopic e (es ++ rest) hf hc,
              pushLoop_no_data J sid p sTopic e es hf hc, ih]
            cases hs : (pushLoop J (some sid) p sTopic es).2 <;> simp [hs]
          · simp [pushLoop, hf, hc, hne]
        | ok msg =>
          rw [List.cons_append, pushLoop_message J sid p sTopic e (es ++ rest) msg hf hc,
            pushLoop_message J sid p sTopic e es msg hf hc, ih]
          cases hs : (pushLoop J (some sid) p sTopic es).2 <;> simp [hs]

theorem sentPackets_append (a b : List StreamEvent) :
    sentPackets (a ++ b) = sentPackets a ++ sentPackets b := by
  induction a with
  | nil => rfl
  | cons e a ih => cases e <;> simp [sentPackets, ih]

theorem pushLoop_send_guarded (J : JsonLib) (wss : Option GoString) (p : WatchLogPacket)
    (sTopic : GoString) (script : List IterEnv) (pre post : List StreamEvent)
    (dp : DataPacket) (r : Option GoError)
    (h : (pushLoop J wss p sTopic script).1 = pre ++ StreamEvent.send dp r :: post) :
    ∃ pre1 msg, pre = pre1 ++ [StreamEvent.getTopicEnable sTopic true,
      StreamEvent.consume (Except.ok msg)] := by
  induction script generalizing pre with
  | nil => simp [pushLoop] at h
  | cons e es ih =>
    cases wss with
    | none => simp [pushLoop] at h
    | some sid =>
      cases hf : e.bTopicEnable with
      | false =>
        rw [pushLoop_flag_false J sid p sTopic e es hf] at h
        match pre, h with
        | [], h => simp at h
        | [_], h => simp at h
        | _ :: _ :: _, h => simp at h
      | true =>
        cases hc : e.consumed with
        | error err =>
          by_cases hne : err = KafkaError.ErrNoData
          · subst hne
            rw [pushLoop_no_data J sid p sTopic e es hf hc] at h
            match pre, h with
            | [], h => simp at h
            | [_], h => simp at h
            | a :: b :: pre2, h =>
              simp only [List.cons_append, List.cons.injEq] at h
              obtain ⟨ha, hb, h2⟩ := h
              obtain ⟨pre1, msg, hp⟩ := ih pre2 h2
              exact ⟨a :: b :: pre1, msg, by simp [hp]⟩
          · rw [pushLoop_error J sid p sTopic e es err hf hc hne] at h
            match pre, h with
            | [], h => simp at h
            | [_], h => simp at h
            | [_, _], h => simp at h
            | _ :: _ :: _ :: _, h => simp at h
        | ok msg =>
          rw [pushLoop_message J sid p sTopic e es msg hf hc] at h
          match pre, h with
          | [], h => simp at h
          | [_], h => simp at h
          | [a, b], h =>
            simp only [List.cons_append, List.nil_append, List.cons.injEq] at h
            exact ⟨[], msg, by simp [h.1, h.2.1]⟩
          | [_, _, _], h => simp at h
          | a :: b :: c :: d :: pre2, h =>
            simp only [List.cons_append, List.cons.injEq] at h
            obtain ⟨ha, hb, hc2, hd, h2⟩ := h
            obtain ⟨pre1, msg1, hp⟩ := ih pre2 h2
            exact ⟨a :: b :: c :: d :: pre1, msg1, by simp [hp]⟩

theorem pushLoop_stopped_or_rest (J : JsonLib) (wss : Option GoString) (p : WatchLogPacket)
    (sTopic : GoString) (e : IterEnv) (es : List IterEnv) :
    ((pushLoop J wss p sTopic (e :: es)).2 = StreamStatus.stopped
      ∧ (sentPackets (pushLoop J wss p sTopic (e :: es)).1).length ≤ 1)
    ∨ ((pushLoop J wss p sTopic (e :: es)).2 = (pushLoop J wss p sTopic es).2
      ∧ (sentPackets (pushLoop J wss p sTopic (e :: es)).1).length
          ≤ (sentPackets (pushLoop J wss p sTopic es).1).length + 1) := by
  cases wss with
  | none => left; simp [pushLoop, sentPackets]
  | some sid =>
    cases hf : e.bTopicEnable with
    | false => left; simp [pushLoop, hf, sentPackets]
    | true =>
      cases hc : e.consumed with
      | error err =>
        by_cases hne : err = KafkaError.ErrNoData
        · right; simp [pushLoop, hf, hc, hne, sentPackets]
        · left; simp [pushLoop, hf, hc, hne, sentPackets]
      | ok msg => right; simp [pushLoop, hf, hc, sentPackets]

theorem pushLoop_ne_panicked (J : JsonLib) (wss : Option GoString) (p : WatchLogPacket)
    (sTopic : GoString) (script : List IterEnv) :
    (pushLoop J wss p sTopic script).2 ≠ StreamStatus.panicked := by
  induction script with
  | nil => simp [pushLoop]
  | cons e es ih =>
    cases wss with
    | none => simp [pushLoop]
    | some sid =>
      cases hf : e.bTopicEnable with
      | false => simp [pushLoop, hf]
      | true =>
        cases hc : e.consumed with
        | error err =>
          by_cases hne : err = KafkaError.ErrNoData
          · subst hne
            rw [pushLoop_no_data J sid p sTopic e es hf hc]
            exact ih
          · simp [pushLoop, hf, hc, hne]
        | ok msg =>
          rw [pushLoop_message J sid p sTopic e es msg hf hc]
          exact ih

theorem PushTopic_consumer_ok (J : JsonLib) (sid : GoString) (p : WatchLogPacket)
    (script : List IterEnv) :
    PushTopic J (some sid) p none script
      = (StreamEvent.newConsumer (CreateTopicName p.Api p.UserId p.ServiceId p.VersionId) none
          :: (pushLoop J (some sid) p
                (CreateTopicName p.Api p.UserId p.ServiceId p.VersionId) script).1,
         (pushLoop J (some sid) p
            (CreateTopicName p.Api p.UserId p.ServiceId p.VersionId) script).2) :=
  rfl

theorem PushTopic_consumer_error (J : JsonLib) (sid : GoString) (p : WatchLogPacket)
    (err : GoError) (script : List IterEnv) :
    PushTopic J (some sid) p (some err) script
      = ([StreamEvent.newConsumer
            (CreateTopicName p.Api p.UserId p.ServiceId p.VersionId) (some err)],
         StreamStatus.stopped) :=
  rfl

theorem pushLoop_after_stop (J : JsonLib) (wss : Option GoString) (p : WatchLogPacket)
    (sTopic : GoString) (pre post : List IterEnv) (x e : IterEnv)
    (h : e.bTopicEnable = false) :
    (pushLoop J wss p sTopic (pre ++ x :: e :: post)).2 = StreamStatus.stopped
    ∧ (sentPackets (pushLoop J wss p sTopic (pre ++ x :: e :: post)).1).length
        ≤ (sentPackets (pushLoop J wss p sTopic pre).1).length + 1 := by
  have he : (pushLoop J wss p sTopic (e :: post)).2 = StreamStatus.stopped
      ∧ (sentPackets (pushLoop J wss p sTopic (e :: post)).1).length = 0 := by
    cases wss with
    | none => simp [pushLoop, sentPackets]
    | some sid => simp [pushLoop, h, sentPackets]
  have hx : (pushLoop J wss p sTopic (x :: e :: post)).2 = StreamStatus.stopped
      ∧ (sentPackets (pushLoop J wss p sTopic (x :: e :: post)).1).length ≤ 1 := by
    rcases pushLoop_stopped_or_rest J wss p sTopic x (e :: post) with h1 | h1
    · exact h1
    · exact ⟨h1.1.trans he.1, by have := h1.2; omega⟩
  rw [pushLoop_append J wss p sTopic pre (x :: e :: post)]
  cases hs : (pushLoop J wss p sTopic pre).2 with
  | running =>
    simp only [sentPackets_append, List.length_append]
    exact ⟨hx.1, by have := hx.2; omega⟩
  | stopped =>
    dsimp only
    exact ⟨hs, by omega⟩
  | panicked => exact absurd hs (pushLoop_ne_panicked J wss p sTopic pre)

/-- C6: a streamer never forwards a line for a disabled topic. (1) In a run that reaches
an iteration in which the flag reads false, that iteration adds the read and nothing
else, neither a poll of the consumer nor a `Send`, and the loop has ended. (2) Every
packet sent is preceded, in its iteration, by a read of the flag that returned true and
by the poll that yielded its line. (3) Once an iteration reads false, the run has ended,
and beyond the iterations completed before the one in flight it has sent at most one
packet. -/
theorem PushTopic_stops_on_disabled_topic (J : JsonLib) (sid : GoString)
    (p : WatchLogPacket) :
    (∀ (errNewConsumer : Option GoError) (pre post : List IterEnv) (e : IterEnv),
        e.bTopicEnable = false →
        (PushTopic J (some sid) p errNewConsumer pre).2 = StreamStatus.running →
        PushTopic J (some sid) p errNewConsumer (pre ++ e :: post)
          = ((PushTopic J (some sid) p errNewConsumer pre).1
              ++ [StreamEvent.getTopicEnable
                    (CreateTopicName p.Api p.UserId p.ServiceId p.VersionId) false],
             StreamStatus.stopped))
    ∧ (∀ (errNewConsumer : Option GoError) (script : List IterEnv)
        (pre post : List StreamEvent) (dp : DataPacket) (r : Option GoError),
        (PushTopic J (some sid) p errNewConsumer script).1
          = pre ++ StreamEvent.send dp r :: post →
        ∃ pre1 msg, pre = pre1 ++
          [StreamEvent.getTopicEnable
              (CreateTopicName p.Api p.UserId p.ServiceId p.VersionId) true,
            StreamEvent.consume (Except.ok msg)])
    ∧ (∀ (errNewConsumer : Option GoError) (pre post : List IterEnv) (x e : IterEnv),
        e.bTopicEnable = false →
        (PushTopic J (some sid) p errNewConsumer (pre ++ x :: e :: post)).2
          = StreamStatus.stopped
        ∧ (sentPackets (PushTopic J (some sid) p errNewConsumer
              (pre ++ x :: e :: post)).1).length
            ≤ (sentPackets (PushTopic J (some sid) p errNewConsumer pre).1).length + 1) := by
  refine ⟨?_, ?_, ?_⟩
  · intro errNewConsumer pre post e he hrun
    cases errNewConsumer with
    | some err =>
      rw [PushTopic_consumer_error] at hrun
      exact absurd hrun (fun h => StreamStatus.noConfusion h)
    | none =>
      rw [PushTopic_consumer_ok] at hrun ⊢
      rw [PushTopic_consumer_ok]
      simp only at hrun
      rw [pushLoop_append, hrun, pushLoop_flag_false J sid p _ e post he]
      simp
  · intro errNewConsumer script pre post dp r h
    cases errNewConsumer with
    | some err =>
      rw [PushTopic_consumer_error] at h
      match pre, h with
      | [], h => simp at h
      | [_], h => simp at h
      | _ :: _ :: _, h => simp at h
    | none =>
      rw [PushTopic_consumer_ok] at h
      match pre, h with
      | [], h => simp at h
      | a :: pre2, h =>
        simp only [List.cons_append, List.cons.injEq] at h
        obtain ⟨pre1, msg, hp⟩ := pushLoop_send_guarded J (some sid) p _ script pre2 post dp r h.2
        exact ⟨a :: pre1, msg, by simp [hp]⟩
  · intro errNewConsumer pre post x e he
    cases errNewConsumer with
    | some err => simp [PushTopic_consumer_error, sentPackets]
    | none =>
      have := pushLoop_after_stop J (some sid) p
        (CreateTopicName p.Api p.UserId p.ServiceId p.VersionId) pre post x e he
      simpa [PushTopic_consumer_ok, sentPackets] using this

/-- C6, on an example: two lines are forwarded, then the flag reads false. -/
theorem PushTopic_stops_on_disabled_topic_witness :
    sampleStop.bTopicEnable = false
    ∧ (PushTopic sampleJson (some (lit "s1")) sampleWatch none
        ([sampleIter "l1" none] ++ sampleIter "l2" none :: sampleStop
          :: [sampleIter "l3" none])).2 = StreamStatus.stopped
    ∧ (sentPackets (PushTopic sampleJson (some (lit "s1")) sampleWatch none
        ([sampleIter "l1" none] ++ sampleIter "l2" none :: sampleStop
          :: [sampleIter "l3" none])).1).length
        ≤ (sentPackets (PushTopic sampleJson (some (lit "s1")) sampleWatch none
            [sampleIter "l1" none]).1).length + 1 :=
  ⟨rfl, (PushTopic_stops_on_disabled_topic sampleJson (lit "s1") sampleWatch).2.2 none
    [sampleIter "l1" none] [sampleIter "l3" none] (sampleIter "l2" none) sampleStop rfl⟩

/-- C7 as stated fails: the first `Send` fails with `TransportClosed`, the flag stays set,
and the streamer goes on to poll the consumer and to send again. -/
theorem PushTopic_continues_after_failed_send :
    PushTopic sampleJson (some (lit "s1")) sampleWatch none
        [sampleIter "l1" (some "TransportClosed"), sampleIter "l2" none]
      = ([ StreamEvent.newConsumer (lit "api_x__u_1__svc__v1") none,
           StreamEvent.getTopicEnable (lit "api_x__u_1__svc__v1") true,
           StreamEvent.consume (Except.ok { Value := lit "l1" }),
           StreamEvent.send
             { byrFrame := lit "api-x,u-1,svc,v1,l1,id", nFrameLen := 22,
               sSendTo := lit "s1", sReceiveFrom := [] } (some "TransportClosed"),
           StreamEvent.sleep 100,
           StreamEvent.getTopicEnable (lit "api_x__u_1__svc__v1") true,
           StreamEvent.consume (Except.ok { Value := lit "l2" }),
           StreamEvent.send
             { byrFrame := lit "api-x,u-1,svc,v1,l2,id", nFrameLen := 22,
               sSendTo := lit "s1", sReceiveFrom := [] } none,
           StreamEvent.sleep 100 ],
         StreamStatus.running) := by
  rfl

/-- C7, amended: the streamer does not inspect what `Send` returns. Whatever the result
`r` of the `Send` of an iteration, failure or not, the streamer sleeps 100 ms and goes on
with the next iteration. What follows has no further poll and no further `Send` if and
only if that iteration reads the topic flag as false, and then the run ends there; when
the flag reads true the consumer is polled again, and a message is sent again. -/
theorem pushLoop_ignores_send_result (J : JsonLib) (sid : GoString) (p : WatchLogPacket)
    (sTopic : GoString) (e : IterEnv) (es : List IterEnv) (msg : Message)
    (r : Option GoError) (hflag : e.bTopicEnable = true)
    (hmsg : e.consumed = Except.ok msg) :
    pushLoop J (some sid) p sTopic ({ e with sendResult := r } :: es)
      = (StreamEvent.getTopicEnable sTopic true :: StreamEvent.consume (Except.ok msg)
          :: StreamEvent.send
              { byrFrame := PacketPushLog J p.Api p.UserId p.ServiceId p.VersionId
                  msg.Value e.uuid,
                nFrameLen := (PacketPushLog J p.Api p.UserId p.ServiceId p.VersionId
                  msg.Value e.uuid).length,
                sSendTo := sid, sReceiveFrom := [] } r
          :: StreamEvent.sleep 100 :: (pushLoop J (some sid) p sTopic es).1,
         (pushLoop J (some sid) p sTopic es).2)
    ∧ (∀ (e1 : IterEnv) (es1 : List IterEnv), es = e1 :: es1 → e1.bTopicEnable = false →
        pushLoop J (some sid) p sTopic es
          = ([StreamEvent.getTopicEnable sTopic false], StreamStatus.stopped))
    ∧ (∀ (e1 : IterEnv) (es1 : List IterEnv), es = e1 :: es1 →
        ((consumeCount (pushLoop J (some sid) p sTopic es).1 = 0
            ∧ sentPackets (pushLoop J (some sid) p sTopic es).1 = [])
          ↔ e1.bTopicEnable = false))
    ∧ (∀ (e1 : IterEnv) (es1 : List IterEnv), es = e1 :: es1 → e1.bTopicEnable = true →
        (∃ rest, (pushLoop J (some sid) p sTopic es).1
            = StreamEvent.getTopicEnable sTopic true :: StreamEvent.consume e1.consumed
                :: rest)
        ∧ (∀ msg1, e1.consumed = Except.ok msg1 →
            sentPackets (pushLoop J (some sid) p sTopic es).1 ≠ [])) := by
  have hpoll : ∀ (e1 : IterEnv) (es1 : List IterEnv), e1.bTopicEnable = true →
      ∃ rest, (pushLoop J (some sid) p sTopic (e1 :: es1)).1
        = StreamEvent.getTopicEnable sTopic true :: StreamEvent.consume e1.consumed
            :: rest := by
    intro e1 es1 h1
    cases hc : e1.consumed with
    | error err =>
      by_cases hne : err = KafkaError.ErrNoData
      · subst hne
        rw [pushLoop_no_data J sid p sTopic e1 es1 h1 hc]
        exact ⟨_, rfl⟩
      · rw [pushLoop_error J sid p sTopic e1 es1 err h1 hc hne]
        exact ⟨_, rfl⟩
    | ok msg1 =>
      rw [pushLoop_message J sid p sTopic e1 es1 msg1 h1 hc]
      exact ⟨_, rfl⟩
  refine ⟨pushLoop_message J sid p sTopic { e with sendResult := r } es msg hflag hmsg,
    ?_, ?_, ?_⟩
  · intro e1 es1 hes he1
    rw [hes]
    exact pushLoop_flag_false J sid p sTopic e1 es1 he1
  · intro e1 es1 hes
    rw [hes]
    constructor
    · intro hno
      cases h1 : e1.bTopicEnable with
      | false => rfl
      | true =>
        obtain ⟨rest, hrest⟩ := hpoll e1 es1 h1
        rw [hrest] at hno
        simp [consumeCount] at hno
    · intro h1
      rw [pushLoop_flag_false J sid p sTopic e1 es1 h1]
      simp [consumeCount, sentPackets]
  · intro e1 es1 hes h1
    rw [hes]
    refine ⟨hpoll e1 es1 h1, ?_⟩
    intro msg1 hc
    rw [pushLoop_message J sid p sTopic e1 es1 msg1 h1 hc]
    simp [sentPackets]

/-- C7, amended, on an example: after a failed `Send` the run goes on with the next
iteration, which polls and sends again because the flag still reads true. -/
theorem pushLoop_ignores_send_result_witness :
    (sampleIter "l1" none).bTopicEnable = true
    ∧ (sampleIter "l2" none).bTopicEnable = true
    ∧ sentPackets (pushLoop sampleJson (some (lit "s1")) sampleWatch (lit "t")
        [sampleIter "l2" none]).1 ≠ [] :=
  ⟨rfl, rfl, ((pushLoop_ignores_send_result sampleJson (lit "s1") sampleWatch
    (lit "t") (sampleIter "l1" none) [sampleIter "l2" none] { Value := lit "l1" }
    (some "TransportClosed") rfl rfl).2.2.2 (sampleIter "l2" none) [] rfl rfl).2
      { Value := lit "l2" } rfl⟩

/-- C8: in an iteration that polls the consumer: on `kafka.ErrNoData` the streamer sends
nothing, does not sleep and goes on with the next iteration; on any other error the loop
ends, nothing is sent; on a message it sends one push-log packet, whose `log` is the
value of the message and whose `api`, `userId`, `serviceId`, `versionId` are those of
the watch request, then sleeps and goes on. -/
theorem pushLoop_consume_results (J : JsonLib) (sid : GoString) (p : WatchLogPacket)
    (sTopic : GoString) (e : IterEnv) (es : List IterEnv)
    (hflag : e.bTopicEnable = true) :
    (e.consumed = Except.error KafkaError.ErrNoData →
        pushLoop J (some sid) p sTopic (e :: es)
          = (StreamEvent.getTopicEnable sTopic true
              :: StreamEvent.consume (Except.error KafkaError.ErrNoData)
              :: (pushLoop J (some sid) p sTopic es).1,
             (pushLoop J (some sid) p sTopic es).2))
    ∧ (∀ err : KafkaError, e.consumed = Except.error err → err ≠ KafkaError.ErrNoData →
        pushLoop J (some sid) p sTopic (e :: es)
          = ([StreamEvent.getTopicEnable sTopic true,
              StreamEvent.consume (Except.error err)], StreamStatus.stopped))
    ∧ (∀ msg : Message, e.consumed = Except.ok msg →
        ∃ dp : DataPacket,
          dp.byrFrame = J.marshalPushLog
            { api := p.Api, userId := p.UserId, serviceId := p.ServiceId,
              versionId := p.VersionId, log := msg.Value, correlationId := e.uuid }
          ∧ dp.sSendTo = sid
          ∧ pushLoop J (some sid) p sTopic (e :: es)
            = (StreamEvent.getTopicEnable sTopic true :: StreamEvent.consume (Except.ok msg)
                :: StreamEvent.send dp e.sendResult :: StreamEvent.sleep 100
                :: (pushLoop J (some sid) p sTopic es).1,
               (pushLoop J (some sid) p sTopic es).2)) := by
  refine ⟨fun hc => pushLoop_no_data J sid p sTopic e es hflag hc,
    fun err hc hne => pushLoop_error J sid p sTopic e es err hflag hc hne,
    fun msg hc => ⟨_, rfl, rfl, pushLoop_message J sid p sTopic e es msg hflag hc⟩⟩

/-- C8, on an example: an empty poll is followed at once by the next iteration. -/
theorem pushLoop_consume_results_witness :
    ({ sampleStop with bTopicEnable := true } : IterEnv).bTopicEnable = true
    ∧ pushLoop sampleJson (some (lit "s1")) sampleWatch (lit "t")
        ({ sampleStop with bTopicEnable := true } :: [sampleStop])
      = ([StreamEvent.getTopicEnable (lit "t") true,
          StreamEvent.consume (Except.error KafkaError.ErrNoData),
          StreamEvent.getTopicEnable (lit "t") false], StreamStatus.stopped) :=
  ⟨rfl, ((pushLoop_consume_results sampleJson (lit "s1") sampleWatch (lit "t")
    { sampleStop with bTopicEnable := true } [sampleStop] rfl).1 rfl).trans rfl⟩

end Cyclone
